import Mathlib

/-!
Verification of the agent runtime core (task executor, memory store, tool
registry) of the ai_companion repository, as a shallow embedding in Lean 4.
Python source files embedded here:
  src/agents/core/agent_executor.py  (BaseAgentExecutor)
  src/agents/core/memory.py          (AgentMemory)
  src/agents/core/tools.py           (ToolRegistry)
-/

namespace AICompanion

/-- Message roles from a2a.types.MessageRole (user / assistant / system). -/
inductive MessageRole where
  | user
  | assistant
  | system
deriving DecidableEq, Repr

/-- A content part of a message: a TextPart carrying text, or any other
(non-text) part, which the executor treats as opaque. -/
inductive MessagePart where
  | textPart (text : String)
  | otherPart
deriving DecidableEq, Repr

/-- A message: a role plus an ordered list of content parts
(a2a.types.Message). -/
structure Message where
  role : MessageRole
  parts : List MessagePart
deriving DecidableEq, Repr

/-- Lifecycle tags from a2a.types.TaskUpdateType. The protocol's event union
is Submitted, Progress (IN_PROGRESS), Completed, Failed, Canceled; the
executor code only ever emits the last four. -/
inductive TaskUpdateType where
  | submitted
  | inProgress
  | completed
  | failed
  | canceled
deriving DecidableEq, Repr

/-- An emitted lifecycle event (a2a.types.TaskUpdate): task id, update type,
human-readable message, and an optional result Message (present on
COMPLETED events). -/
structure TaskUpdate where
  task_id : String
  update_type : TaskUpdateType
  message : String
  result : Option Message := none
deriving DecidableEq, Repr

/-- The request context handed to execute / cancel: a task id and an
optional inbound message. -/
structure RequestContext where
  task_id : String
  message : Option Message
deriving DecidableEq, Repr

/-- Whether an update type is terminal (Completed, Failed, or Canceled). -/
def TaskUpdateType.isTerminal : TaskUpdateType → Bool
  | .completed => true
  | .failed => true
  | .canceled => true
  | _ => false

/-- First TextPart of a parts list, in document order: the loop
`for part in context.message.parts: if isinstance(part, TextPart): return part.text`
from BaseAgentExecutor. Returns the text of the first TextPart
unconditionally, even when that text is empty. -/
def firstTextPart : List MessagePart → Option String
  | [] => none
  | .textPart t :: _ => some t
  | .otherPart :: rest => firstTextPart rest

/-- BaseAgentExecutor._extract_user_message: none when the context has no
message or the message has no parts; otherwise the first TextPart's text. -/
def extract_user_message (ctx : RequestContext) : Option String :=
  match ctx.message with
  | none => none
  | some msg => if msg.parts = [] then none else firstTextPart msg.parts

/-- BaseAgentExecutor._send_status_update: an IN_PROGRESS TaskUpdate. -/
def statusUpdate (task_id status : String) : TaskUpdate :=
  { task_id := task_id, update_type := .inProgress, message := status }

/-- BaseAgentExecutor._send_error: a FAILED TaskUpdate. -/
def errorUpdate (task_id error_message : String) : TaskUpdate :=
  { task_id := task_id, update_type := .failed, message := error_message }

/-- BaseAgentExecutor._send_response: a COMPLETED TaskUpdate whose result is
an assistant Message with a single TextPart holding the response text. -/
def responseUpdate (task_id response_text : String) : TaskUpdate :=
  { task_id := task_id, update_type := .completed,
    message := "Task completed successfully",
    result := some { role := .assistant, parts := [.textPart response_text] } }

/-- BaseAgentExecutor.execute, instrumented: returns the ordered list of
TaskUpdate events put on the event queue, paired with the list of inputs on
which the processing capability (the abstract process_message, injected here
as process) was invoked. The capability may fault (Except.error e models a
raised exception with text e); execute catches the fault at its boundary and
converts it to a FAILED event, as the Python try/except does. The Python
test `if not user_message` is falsy both for None and for the empty
string. -/
def executeTrace (process : String → Except String String)
    (ctx : RequestContext) : List TaskUpdate × List String :=
  let progress := statusUpdate ctx.task_id "Processing request..."
  let failNoContent :=
    ([progress, errorUpdate ctx.task_id "No valid message content found"],
     ([] : List String))
  match extract_user_message ctx with
  | none => failNoContent
  | some user_message =>
    if user_message = "" then failNoContent
    else
      match process user_message with
      | .ok response =>
        ([progress, responseUpdate ctx.task_id response], [user_message])
      | .error e =>
        ([progress, errorUpdate ctx.task_id ("Execution error: " ++ e)],
         [user_message])

/-- The events emitted by one run of BaseAgentExecutor.execute. -/
def execute (process : String → Except String String)
    (ctx : RequestContext) : List TaskUpdate :=
  (executeTrace process ctx).1

/-- BaseAgentExecutor.cancel: unconditionally puts a single CANCELED
TaskUpdate on the event queue; there is no check of any prior state. -/
def cancel (ctx : RequestContext) : List TaskUpdate :=
  [{ task_id := ctx.task_id, update_type := .canceled,
     message := "Task canceled by user" }]

/-- Python list slicing l[-n:]. For n equal to 0 this is l[0:], the whole
list (since -0 is 0); for n at least 1 it is the last n elements, or the
whole list when n exceeds the length. List.rtake l n is defined in Mathlib
as l.drop (l.length - n), which agrees with l[-n:] exactly when n is at
least 1. -/
def pySliceLast (l : List α) (n : Nat) : List α :=
  if n = 0 then l else l.rtake n

/-- AgentMemory from src/agents/core/memory.py: a capacity bound
(max_messages, default 100 in the source) and the ordered message list.
Metadata is omitted: no claim mentions it. -/
structure AgentMemory where
  max_messages : Nat
  messages : List Message
deriving DecidableEq, Repr

/-- AgentMemory.add_message: append, then trim with
`self.messages = self.messages[-self.max_messages:]` whenever the length
exceeds max_messages. -/
def AgentMemory.add_message (mem : AgentMemory) (message : Message) :
    AgentMemory :=
  if (mem.messages ++ [message]).length > mem.max_messages then
    { mem with
      messages := pySliceLast (mem.messages ++ [message]) mem.max_messages }
  else
    { mem with messages := mem.messages ++ [message] }

/-- AgentMemory.get_messages: filter by role when a role is given (enum
members are truthy in Python), then take the last last_n messages; the
Python guard `if last_n:` is falsy for None and for 0, so last_n equal to 0
performs no truncation at all. -/
def AgentMemory.get_messages (mem : AgentMemory) (last_n : Option Nat)
    (role : Option MessageRole) : List Message :=
  let filtered :=
    match role with
    | some r => mem.messages.filter (fun m => m.role = r)
    | none => mem.messages
  match last_n with
  | none => filtered
  | some 0 => filtered
  | some n => pySliceLast filtered n

/-- A fresh AgentMemory with capacity c, as built by the constructor. -/
def AgentMemory.fresh (c : Nat) : AgentMemory :=
  { max_messages := c, messages := [] }

/-- A whole sequence of add_message calls applied to a fresh memory of
capacity c, in order. -/
def runAppends (c : Nat) (msgs : List Message) : AgentMemory :=
  msgs.foldl AgentMemory.add_message (AgentMemory.fresh c)

/-- A tool callable, from the registry's point of view: either an ordinary
synchronous Python callable, or a coroutine function (async def). Calling a
synchronous callable runs its body at once (Except.error models a raised
exception); calling a coroutine function merely builds a coroutine object,
and only awaiting that object runs the body. Callables take one argument of
type A and produce a plain (non-awaitable) value of type B. -/
inductive ToolFun (A B : Type) where
  | sync (f : A → Except String B)
  | coro (f : A → Except String B)

/-- ToolDefinition from src/agents/core/tools.py: name, description,
parameter schema (a JSON-ish dict, here a list of key-value string pairs),
the callable, and tags. -/
structure ToolDefinition (A B : Type) where
  name : String
  description : String
  parameters : List (String × String)
  function : ToolFun A B
  tags : List String

/-- ToolRegistry: the tools dict, keyed by name, in insertion order. -/
structure ToolRegistry (A B : Type) where
  tools : List (ToolDefinition A B)

/-- ToolRegistry.get_tool: dict lookup by name. -/
def ToolRegistry.get_tool (reg : ToolRegistry A B) (name : String) :
    Option (ToolDefinition A B) :=
  reg.tools.find? (fun t => t.name = name)

/-- The value returned by a successful execute_tool call: either a plain
value, or an unexecuted coroutine object still wrapping the callable body
and its arguments (what Python returns when a coroutine function is called
without being awaited). -/
inductive CallResult (A B : Type) where
  | value (v : B)
  | suspension (f : A → Except String B) (args : A)

/-- The faults execute_tool and execute_tool_async can raise: the ValueError
for a missing tool name, the TypeError raised by awaiting a non-awaitable,
or an exception propagated unchanged from the callable body. -/
inductive ToolFault where
  | notFound (name : String)
  | typeError (msg : String)
  | raised (msg : String)
deriving DecidableEq, Repr

/-- ToolRegistry.execute_tool: look up the tool (ValueError when absent),
then evaluate `tool.function(**kwargs)` and return the result; exceptions
from the body propagate. For a coroutine function the call expression
builds and returns the coroutine object without running the body, so the
result is an unexecuted suspension, returned without any error. -/
def ToolRegistry.execute_tool (reg : ToolRegistry A B) (name : String)
    (args : A) : Except ToolFault (CallResult A B) :=
  match reg.get_tool name with
  | none => .error (.notFound name)
  | some tool =>
    match tool.function with
    | .sync f =>
      match f args with
      | .ok v => .ok (.value v)
      | .error e => .error (.raised e)
    | .coro f => .ok (.suspension f args)

/-- ToolRegistry.execute_tool_async: look up the tool (ValueError when
absent), then evaluate `await tool.function(**kwargs)`. For a coroutine
function the await runs the body. For a synchronous callable the call runs
the body first; its plain result is not awaitable, so the await raises
TypeError (unless the body itself already raised, which propagates). -/
def ToolRegistry.execute_tool_async (reg : ToolRegistry A B) (name : String)
    (args : A) : Except ToolFault B :=
  match reg.get_tool name with
  | none => .error (.notFound name)
  | some tool =>
    match tool.function with
    | .sync f =>
      match f args with
      | .ok _v => .error (.typeError "object is not awaitable")
      | .error e => .error (.raised e)
    | .coro f =>
      match f args with
      | .ok v => .ok v
      | .error e => .error (.raised e)

/-- A JSON-ish value, for tool schemas (Dict[str, Any] in the source). -/
inductive Jn where
  | jstr (s : String)
  | jobj (fields : List (String × Jn))

/-- ToolRegistry.get_tool_schemas: one descriptor per registered tool, in
dict order, each the OpenAI-compatible shape
with top-level keys type and function, the function object holding the
name, description and parameters. -/
def ToolRegistry.get_tool_schemas (reg : ToolRegistry A B) : List Jn :=
  reg.tools.map (fun tool =>
    .jobj [("type", .jstr "function"),
           ("function", .jobj
             [("name", .jstr tool.name),
              ("description", .jstr tool.description),
              ("parameters", .jobj
                (tool.parameters.map (fun kv => (kv.1, .jstr kv.2))))])])

/-- Modelled from the spec: the neutral descriptor shape the spec assigns to
export_schemas, a flat object with exactly the keys name, description and
parameters and no third-party wrapper. Used only to compare against what
get_tool_schemas actually produces. -/
def export_schemas_spec (reg : ToolRegistry A B) : List Jn :=
  reg.tools.map (fun tool =>
    .jobj [("name", .jstr tool.name),
           ("description", .jstr tool.description),
           ("parameters", .jobj
             (tool.parameters.map (fun kv => (kv.1, .jstr kv.2))))])

/-- Top-level keys of a JSON object, used to tell the two schema shapes
apart. -/
def Jn.topKeys : Jn → List String
  | .jobj fields => fields.map Prod.fst
  | _ => []

/-- The OpenAI wrapper around a neutral descriptor: the shape
get_tool_schemas actually emits for each tool. -/
def wrapFunction (j : Jn) : Jn :=
  .jobj [("type", .jstr "function"), ("function", j)]

/-!  Concrete fixtures used by witnesses and counterexamples. -/

/-- A processing capability that returns the text hello back, as in the
concrete scenario of the spec. -/
def procHello : String → Except String String :=
  fun _ => .ok "hello back"

/-- Request context for the concrete scenario: task id t1, user message
with a single text part hi. -/
def ctxT1 : RequestContext :=
  { task_id := "t1",
    message := some { role := .user, parts := [.textPart "hi"] } }

/-- Request context whose message has parts but no text-bearing part. -/
def ctxNoText : RequestContext :=
  { task_id := "t2",
    message := some { role := .user, parts := [.otherPart] } }

/-- Request context whose first TextPart in document order is empty: a
non-text part comes first, then the empty TextPart, then a TextPart
carrying non-empty text. -/
def ctxEmptyFirst : RequestContext :=
  { task_id := "t3",
    message := some { role := .user,
                      parts := [.otherPart, .textPart "",
                                .textPart "later text"] } }

/-- A user message carrying the given text. -/
def mU (s : String) : Message := { role := .user, parts := [.textPart s] }

/-- An assistant message carrying the given text. -/
def mA (s : String) : Message :=
  { role := .assistant, parts := [.textPart s] }

/-- A memory holding 5 user and 3 assistant messages interleaved, capacity
100 (the source default). -/
def mem8 : AgentMemory :=
  { max_messages := 100,
    messages := [mU "u1", mU "u2", mA "a1", mU "u3", mA "a2", mU "u4",
                 mA "a3", mU "u5"] }

/-!  Theorems for the claims. -/

/-- C1 (amended): for every processing capability and every request
context, the events emitted by one run of execute contain exactly one
terminal event (Completed, Failed, or Canceled), and it is the last event
of that run. The original claim extended this to every event later emitted
for the task, including by a cancel call issued after the terminal event;
that part fails, because cancel emits a Canceled event unconditionally (see
the counterexample). -/
theorem execute_one_terminal_and_last
    (p : String → Except String String) (ctx : RequestContext) :
    ((execute p ctx).filter (fun e => e.update_type.isTerminal)).length = 1 ∧
    ((execute p ctx).getLast?).map (fun e => e.update_type.isTerminal) =
      some true := by
  unfold execute executeTrace
  cases h : extract_user_message ctx with
  | none =>
    simp [statusUpdate, errorUpdate, TaskUpdateType.isTerminal, List.filter]
  | some s =>
    by_cases hs : s = ""
    · simp [hs, statusUpdate, errorUpdate, TaskUpdateType.isTerminal,
        List.filter]
    · cases hp : p s with
      | ok r =>
        simp [hs, hp, statusUpdate, responseUpdate,
          TaskUpdateType.isTerminal, List.filter]
      | error e =>
        simp [hs, hp, statusUpdate, errorUpdate,
          TaskUpdateType.isTerminal, List.filter]

/-- C1 counterexample: in the concrete scenario (task t1, message hi,
capability returning hello back), running execute to completion and then
issuing cancel puts two terminal events on the sink, and the Canceled event
is emitted after the Completed one, so the full per-task event sequence
does not contain exactly one terminal event. -/
theorem sink_after_cancel_has_two_terminals :
    ((execute procHello ctxT1 ++ cancel ctxT1).filter
      (fun e => e.update_type.isTerminal)).length = 2 := by decide

/-- C2 (amended): cancel always emits exactly one Canceled event, with
message Task canceled by user and no result, regardless of any events
already emitted for the task; it never emits nothing. It does not modify
previously emitted events. -/
theorem cancel_always_emits_canceled (ctx : RequestContext) :
    cancel ctx = [{ task_id := ctx.task_id, update_type := .canceled,
                    message := "Task canceled by user", result := none }] :=
  rfl

/-- C2 counterexample: after the concrete scenario run, the event stream of
execute already contains a terminal event, yet cancel still emits one
further event, so cancel after a terminal event is not a no-op. -/
theorem cancel_after_terminal_not_noop :
    (execute procHello ctxT1).any (fun e => e.update_type.isTerminal)
      = true ∧
    (cancel ctxT1).length = 1 := by decide

/-- C3 (amended): for every processing capability and every well-formed
request whose extracted text (the first TextPart in document order) is
non-empty, execute emits a single Progress event with message
Processing request... as its first event, before invoking the processing
capability, then invokes the capability exactly once on the extracted
text, and ends with the terminal event determined by the capability's
outcome; no Submitted event is emitted. In particular, for task id t1 with
user message whose single text part is hi and a capability returning
hello back, the sequence is exactly Progress(Processing request...) then
Completed carrying an assistant message whose single text part is
hello back. -/
theorem progress_then_capability
    (p : String → Except String String) (ctx : RequestContext) (s : String)
    (h1 : extract_user_message ctx = some s) (h2 : s ≠ "") :
    executeTrace p ctx =
      (statusUpdate ctx.task_id "Processing request..." ::
        (match p s with
         | .ok r => [responseUpdate ctx.task_id r]
         | .error e =>
           [errorUpdate ctx.task_id ("Execution error: " ++ e)]),
       [s]) ∧
    executeTrace procHello ctxT1 =
      ([statusUpdate "t1" "Processing request...",
        responseUpdate "t1" "hello back"], ["hi"]) := by
  refine ⟨?_, by decide⟩
  unfold executeTrace
  rw [h1]
  simp only [h2, if_neg, ite_false]
  cases hp : p s <;> simp [h2, hp]

/-- C3 witness: the scenario context extracts the non-empty text hi, and
the run with the hello back capability emits exactly the Progress and
Completed events while invoking the capability once on hi. -/
theorem progress_then_capability_witness :
    extract_user_message ctxT1 = some "hi" ∧
    ("hi" : String) ≠ "" ∧
    executeTrace procHello ctxT1 =
      ([statusUpdate "t1" "Processing request...",
        responseUpdate "t1" "hello back"], ["hi"]) :=
  ⟨rfl, by decide,
    (progress_then_capability procHello ctxT1 "hi" rfl (by decide)).2⟩

/-- C3 counterexample: in the concrete scenario the emitted sequence has
length two, contains no Submitted event, and its first event carries the
message Processing request..., refuting the claimed three-event sequence
Submitted, Progress(processing...), Completed. -/
theorem scenario_t1_no_submitted :
    (execute procHello ctxT1).length = 2 ∧
    (execute procHello ctxT1).filter
      (fun e => e.update_type = .submitted) = [] ∧
    (execute procHello ctxT1).head?.map (fun e => e.message) =
      some "Processing request..." := by decide

/-- C8 (amended): for every request whose message contains no text-bearing
content part, execute emits the Progress event followed by a single Failed
event whose reason is No valid message content found (not the lowercase
no valid message content stated in the claim), invokes the processing
capability on no input at all, and returns normally. -/
theorem execute_no_text_fails
    (p : String → Except String String) (ctx : RequestContext)
    (msg : Message) (h1 : ctx.message = some msg)
    (h2 : firstTextPart msg.parts = none) :
    executeTrace p ctx =
      ([statusUpdate ctx.task_id "Processing request...",
        errorUpdate ctx.task_id "No valid message content found"], []) := by
  have he : extract_user_message ctx = none := by
    unfold extract_user_message
    rw [h1]
    by_cases hp : msg.parts = [] <;> simp [hp, h2]
  unfold executeTrace
  rw [he]

/-- C8 witness: the concrete context whose single part is a non-text part
satisfies the hypotheses, and execute yields exactly the Progress and
Failed events with no capability invocation. -/
theorem execute_no_text_fails_witness :
    ctxNoText.message = some { role := .user, parts := [.otherPart] } ∧
    firstTextPart [MessagePart.otherPart] = none ∧
    executeTrace procHello ctxNoText =
      ([statusUpdate "t2" "Processing request...",
        errorUpdate "t2" "No valid message content found"], []) :=
  ⟨rfl, rfl,
    execute_no_text_fails procHello ctxNoText
      { role := .user, parts := [.otherPart] } rfl rfl⟩

/-- C8 counterexample: on the concrete no-text request the single Failed
event carries the reason No valid message content found, and no emitted
event carries the claimed reason no valid message content, so the claim as
stated (with that exact reason string) is false. -/
theorem failed_reason_string_differs :
    ((execute procHello ctxNoText).filter
      (fun e => e.update_type = .failed)).map (fun e => e.message) =
      ["No valid message content found"] ∧
    ¬ (execute procHello ctxNoText).any
      (fun e => e.message = "no valid message content") := by decide

/-- C10 (confirmed): for every request whose message's first TextPart in
document order (skipping any non-text parts before it) carries the empty
string, extraction returns that empty text unconditionally, whatever the
later parts carry; the executor treats it as missing content, emits the
Failed event with reason No valid message content found after the Progress
event, and never invokes the processing capability. -/
theorem execute_empty_first_text_fails
    (p : String → Except String String) (ctx : RequestContext)
    (msg : Message)
    (h1 : ctx.message = some msg)
    (h2 : firstTextPart msg.parts = some "") :
    extract_user_message ctx = some "" ∧
    executeTrace p ctx =
      ([statusUpdate ctx.task_id "Processing request...",
        errorUpdate ctx.task_id "No valid message content found"], []) := by
  have he : extract_user_message ctx = some "" := by
    unfold extract_user_message
    rw [h1]
    by_cases hp : msg.parts = []
    · rw [hp] at h2
      exact absurd h2 (by simp [firstTextPart])
    · simp [hp, h2]
  refine ⟨he, ?_⟩
  unfold executeTrace
  rw [he]
  simp

/-- C10 witness: the context whose parts are a non-text part, then an
empty TextPart, then a TextPart carrying later text satisfies the
hypotheses (its first TextPart in document order is empty), and execute
emits the Failed event without invoking the capability. -/
theorem execute_empty_first_text_fails_witness :
    ctxEmptyFirst.message =
      some { role := .user,
             parts := [.otherPart, .textPart "", .textPart "later text"] } ∧
    firstTextPart [.otherPart, .textPart "", .textPart "later text"] =
      some "" ∧
    extract_user_message ctxEmptyFirst = some "" ∧
    executeTrace procHello ctxEmptyFirst =
      ([statusUpdate "t3" "Processing request...",
        errorUpdate "t3" "No valid message content found"], []) :=
  ⟨rfl, rfl,
    (execute_empty_first_text_fails procHello ctxEmptyFirst
      { role := .user,
        parts := [.otherPart, .textPart "", .textPart "later text"] }
      rfl rfl).1,
    (execute_empty_first_text_fails procHello ctxEmptyFirst
      { role := .user,
        parts := [.otherPart, .textPart "", .textPart "later text"] }
      rfl rfl).2⟩

/-!  Helper lemmas about rtake, shared by the memory theorems. -/

/-- Taking the last m of the last n elements takes the last min m n. -/
lemma rtake_rtake (l : List α) (m n : Nat) :
    (l.rtake n).rtake m = l.rtake (min m n) := by
  simp [List.rtake_eq_reverse_take_reverse, List.take_take]

/-- rtake never returns more than n elements. -/
lemma length_rtake_le (l : List α) (n : Nat) : (l.rtake n).length ≤ n := by
  simp [List.rtake]
  omega

/-- rtake returns the whole list when it is no longer than n. -/
lemma rtake_of_length_le (l : List α) (n : Nat) (h : l.length ≤ n) :
    l.rtake n = l := by
  simp [List.rtake, Nat.sub_eq_zero_of_le h]

/-- Appending one element and keeping the last c elements can forget the
elements already evicted: keeping the last c of (last c of l, then m) is
the same as keeping the last c of (l, then m), for c at least 1. -/
lemma rtake_append_singleton_rtake (l : List α) (m : α) (c : Nat)
    (hc : 1 ≤ c) : (l.rtake c ++ [m]).rtake c = (l ++ [m]).rtake c := by
  obtain ⟨k, rfl⟩ : ∃ k, c = k + 1 := ⟨c - 1, by omega⟩
  rw [List.rtake_concat_succ, List.rtake_concat_succ, rtake_rtake]
  have : min k (k + 1) = k := by omega
  rw [this]

/-- add_message never changes the capacity field. -/
lemma add_message_max (mem : AgentMemory) (m : Message) :
    (mem.add_message m).max_messages = mem.max_messages := by
  unfold AgentMemory.add_message
  split <;> rfl

/-- Folding add_message over any message list preserves the capacity. -/
lemma foldl_add_message_max (msgs : List Message) (mem : AgentMemory) :
    (msgs.foldl AgentMemory.add_message mem).max_messages =
      mem.max_messages := by
  induction msgs generalizing mem with
  | nil => rfl
  | cons m rest ih => rw [List.foldl_cons, ih, add_message_max]

/-- One add_message step, on a memory within capacity at least 1: the new
history is the last max_messages elements of the appended history. -/
lemma add_message_messages (mem : AgentMemory) (m : Message)
    (hc : 1 ≤ mem.max_messages) :
    (mem.add_message m).messages =
      (mem.messages ++ [m]).rtake mem.max_messages := by
  unfold AgentMemory.add_message pySliceLast
  by_cases hlen : (mem.messages ++ [m]).length > mem.max_messages
  · rw [if_pos hlen, if_neg (by omega : ¬ mem.max_messages = 0)]
  · rw [if_neg hlen,
      rtake_of_length_le (mem.messages ++ [m]) mem.max_messages
        (Nat.not_lt.mp hlen)]

/-- C6 (amended): for every capacity c at least 1 and every sequence of
appended messages, the history stored after running the whole sequence of
add_message calls on a fresh memory equals exactly the last c messages of
the appended sequence in their original relative order (the whole sequence
when it is shorter than c), and its length never exceeds c. The original
claim, quantified over every configured capacity, fails at capacity 0: the
Python trim slice with -0 keeps the entire list (see the
counterexample). -/
theorem memory_capacity_fifo (c : Nat) (msgs : List Message)
    (hc : 1 ≤ c) :
    (runAppends c msgs).messages = msgs.rtake c ∧
    (runAppends c msgs).messages.length ≤ c := by
  have main : (runAppends c msgs).messages = msgs.rtake c := by
    induction msgs using List.reverseRecOn with
    | nil => simp [runAppends, AgentMemory.fresh]
    | append_singleton l m ih =>
      have hfold : runAppends c (l ++ [m]) = (runAppends c l).add_message m := by
        simp [runAppends, List.foldl_append]
      have hmax : (runAppends c l).max_messages = c :=
        foldl_add_message_max l (AgentMemory.fresh c)
      rw [hfold, add_message_messages _ _ (by rw [hmax]; exact hc),
        hmax, ih, rtake_append_singleton_rtake l m c hc]
  exact ⟨main, by rw [main]; exact length_rtake_le msgs c⟩

/-- C6 witness: capacity 2 with three appended messages keeps exactly the
last two, in order, and the bound holds. -/
theorem memory_capacity_fifo_witness :
    1 ≤ 2 ∧
    (runAppends 2 [mU "a", mU "b", mU "c"]).messages = [mU "b", mU "c"] :=
  ⟨by decide,
    (memory_capacity_fifo 2 [mU "a", mU "b", mU "c"] (by decide)).1.trans
      (by decide)⟩

/-- C6 counterexample: with configured capacity 0, a single append leaves
one stored message, so the stored history length exceeds the capacity; the
trim slice with negative-zero start keeps the whole list. -/
theorem capacity_zero_violates_bound :
    (runAppends 0 [mU "a"]).messages = [mU "a"] ∧
    ¬ (runAppends 0 [mU "a"]).messages.length ≤ 0 := by decide

/-- C9 (amended): for every memory, every role filter and every count n at
least 1, get_messages first restricts the history to messages of that role
and then returns the most recent n of the filtered subset in original
order (the entire filtered subset when it is shorter than n). The original
claim, for every n, fails at n equal to 0, where the Python falsy guard
skips truncation entirely (see the counterexample). -/
theorem query_filter_then_lastn (mem : AgentMemory) (n : Nat)
    (r : MessageRole) (hn : 1 ≤ n) :
    mem.get_messages (some n) (some r) =
      ((mem.messages.filter (fun m => m.role = r)).reverse.take n).reverse := by
  obtain ⟨k, rfl⟩ : ∃ k, n = k + 1 := ⟨n - 1, by omega⟩
  unfold AgentMemory.get_messages pySliceLast
  simp [List.rtake_eq_reverse_take_reverse]

/-- C9 witness: on the interleaved history of 5 user and 3 assistant
messages, querying the last 2 with the assistant filter returns exactly
the last 2 assistant messages in original order. -/
theorem query_filter_then_lastn_witness :
    1 ≤ 2 ∧
    mem8.get_messages (some 2) (some .assistant) = [mA "a2", mA "a3"] :=
  ⟨by decide,
    (query_filter_then_lastn mem8 2 .assistant (by decide)).trans
      (by decide)⟩

/-- C9 counterexample: with last_n equal to 0 on the interleaved history,
get_messages returns all three assistant messages instead of the most
recent zero, because the Python guard treats 0 as no truncation. -/
theorem query_lastn_zero_returns_all :
    mem8.get_messages (some 0) (some .assistant) =
      [mA "a1", mA "a2", mA "a3"] ∧
    mem8.get_messages (some 0) (some .assistant) ≠ [] := by decide

/-!  Tool registry fixtures. -/

/-- A tool whose callable is a coroutine function adding one. -/
def asyncTool : ToolDefinition Nat Nat :=
  { name := "atool", description := "adds one, asynchronously",
    parameters := [], function := .coro (fun n => .ok (n + 1)),
    tags := [] }

/-- A registry holding only the coroutine-function tool. -/
def regAsync : ToolRegistry Nat Nat := { tools := [asyncTool] }

/-- A tool whose callable is an ordinary synchronous function doubling its
argument. -/
def syncTool : ToolDefinition Nat Nat :=
  { name := "stool", description := "doubles the input",
    parameters := [], function := .sync (fun n => .ok (2 * n)),
    tags := [] }

/-- A registry holding only the synchronous tool. -/
def regSync : ToolRegistry Nat Nat := { tools := [syncTool] }

/-- A registry holding one tool, for the schema-shape comparison. -/
def regOne : ToolRegistry Nat Nat :=
  { tools := [{ name := "search", description := "find things",
                parameters := [("q", "string")],
                function := .sync (fun n => .ok n), tags := [] }] }

/-- C4 (amended): for every registered tool whose callable is a coroutine
function, execute_tool returns successfully with the unexecuted coroutine
(the callable body paired with its arguments, not yet run): it neither
rejects the invocation with any error condition nor runs the body. -/
theorem invoke_coro_returns_suspension {A B : Type}
    (reg : ToolRegistry A B) (name : String) (t : ToolDefinition A B)
    (f : A → Except String B) (args : A)
    (h1 : reg.get_tool name = some t) (h2 : t.function = .coro f) :
    reg.execute_tool name args = .ok (.suspension f args) := by
  unfold ToolRegistry.execute_tool
  rw [h1]
  simp [h2]

/-- C4 witness: the registry holding the coroutine-function tool satisfies
the hypotheses, and invoking it returns the ok result carrying the
unexecuted suspension. -/
theorem invoke_coro_returns_suspension_witness :
    regAsync.get_tool "atool" = some asyncTool ∧
    asyncTool.function = .coro (fun n => Except.ok (n + 1)) ∧
    regAsync.execute_tool "atool" 41 =
      Except.ok (CallResult.suspension (fun n => Except.ok (n + 1)) 41) :=
  ⟨rfl, rfl,
    invoke_coro_returns_suspension regAsync "atool" asyncTool
      (fun n => Except.ok (n + 1)) 41 rfl rfl⟩

/-- C4 counterexample: invoking the registered coroutine-function tool
returns Except.ok carrying the unexecuted suspension, so execute_tool does
return an unexecuted suspension instead of rejecting with a NotSupported
condition, refuting the claim at this concrete input. -/
theorem invoke_coro_no_notsupported :
    regAsync.execute_tool "atool" 41 =
      Except.ok (CallResult.suspension (fun n => Except.ok (n + 1)) 41) :=
  rfl

/-- C5 (amended): for every registered tool whose callable is synchronous
and returns a value on the given arguments, execute_tool succeeds and
returns that value, but execute_tool_async faults with a TypeError: it
awaits the plain result, which is not awaitable. Synchronous callables can
therefore be invoked only through execute_tool, not through both entry
points. -/
theorem sync_invoke_ok_async_faults {A B : Type}
    (reg : ToolRegistry A B) (name : String) (t : ToolDefinition A B)
    (f : A → Except String B) (args : A) (v : B)
    (h1 : reg.get_tool name = some t) (h2 : t.function = .sync f)
    (h3 : f args = .ok v) :
    reg.execute_tool name args = .ok (.value v) ∧
    reg.execute_tool_async name args =
      .error (.typeError "object is not awaitable") := by
  constructor
  · unfold ToolRegistry.execute_tool
    rw [h1]
    simp [h2, h3]
  · unfold ToolRegistry.execute_tool_async
    rw [h1]
    simp [h2, h3]

/-- C5 witness: the synchronous doubling tool satisfies the hypotheses at
argument 3; execute_tool returns 6 and execute_tool_async raises the
TypeError. -/
theorem sync_invoke_ok_async_faults_witness :
    regSync.get_tool "stool" = some syncTool ∧
    syncTool.function = .sync (fun n => Except.ok (2 * n)) ∧
    (fun n => Except.ok (2 * n) : Nat → Except String Nat) 3 =
      Except.ok 6 ∧
    regSync.execute_tool "stool" 3 = Except.ok (CallResult.value 6) ∧
    regSync.execute_tool_async "stool" 3 =
      Except.error (ToolFault.typeError "object is not awaitable") :=
  ⟨rfl, rfl, rfl,
    (sync_invoke_ok_async_faults regSync "stool" syncTool
      (fun n => Except.ok (2 * n)) 3 6 rfl rfl rfl).1,
    (sync_invoke_ok_async_faults regSync "stool" syncTool
      (fun n => Except.ok (2 * n)) 3 6 rfl rfl rfl).2⟩

/-- C5 counterexample: the synchronous doubling tool invoked through
execute_tool_async does not succeed; it faults with the TypeError raised
by awaiting a non-awaitable, refuting the claim that synchronous callables
may be invoked through either entry point without fault. -/
theorem sync_async_entry_point_faults :
    regSync.execute_tool_async "stool" 3 =
      Except.error (ToolFault.typeError "object is not awaitable") ∧
    regSync.execute_tool "stool" 3 = Except.ok (CallResult.value 6) :=
  ⟨rfl, rfl⟩

/-- C7 (amended): for every registry state, get_tool_schemas returns
exactly one descriptor per registered tool, and each descriptor is the
OpenAI-style wrapper whose top-level keys are type and function, with the
function object holding that tool's name, description and parameters: each
emitted descriptor is the wrapFunction image of the flat neutral
descriptor the spec describes, not the neutral descriptor itself. -/
theorem schemas_wrap_neutral {A B : Type} (reg : ToolRegistry A B) :
    reg.get_tool_schemas = (export_schemas_spec reg).map wrapFunction ∧
    reg.get_tool_schemas.length = reg.tools.length := by
  constructor
  · simp [ToolRegistry.get_tool_schemas, export_schemas_spec,
      wrapFunction, List.map_map, Function.comp]
  · simp [ToolRegistry.get_tool_schemas]

/-- C7 counterexample: on the one-tool registry the emitted descriptor has
top-level keys type and function, and the emitted schema list differs from
the neutral-shape list of the spec, whose descriptor has top-level keys
name, description and parameters; so the descriptors do not have the
neutral shape. -/
theorem schemas_not_neutral_shape :
    regOne.get_tool_schemas ≠ export_schemas_spec regOne ∧
    regOne.get_tool_schemas.map Jn.topKeys = [["type", "function"]] ∧
    (export_schemas_spec regOne).map Jn.topKeys =
      [["name", "description", "parameters"]] :=
  ⟨fun h => absurd (congrArg (List.map Jn.topKeys) h) (by decide),
    rfl, rfl⟩

end AICompanion
